import Mathlib

/-!
Shallow embedding of the `codetiming` package (files `codetiming/_timer.py`
and `codetiming/_timers.py`).

Durations and clock readings are modelled as rationals (`ℚ`); Python's float
`nan` is modelled explicitly where it occurs (`Timer.last` before any
measurement, and the result of `stdev` on fewer than two samples).  Python
dictionaries are modelled as insertion-ordered association lists.  Fallible
Python code (raising) is modelled with `Except PyError`, and operations that
mutate state before raising return the mutated state alongside the outcome.
-/

/-- Model of a Python runtime value as far as report formatting needs it:
a string, a float (here: rational), or `None`.  `str()` of such a value is
`PyVal.render`. -/
inductive PyVal where
  | str (s : String)
  | num (q : ℚ)
  | pyNone
deriving DecidableEq

/-- Model of the Python exception values this package can raise, tagged by
their Python class.  The source defines the single class
`TimerError(Exception)`; `KeyError`, `TypeError`, `IndexError` and
`ValueError` are builtins. -/
inductive PyError where
  | keyError (key : String)
  | typeError (msg : String)
  | indexError (msg : String)
  | valueError (msg : String)
  | timerError (msg : String)
deriving DecidableEq

/-- The Python class name of a raised exception: this is what an
`except SomeClass:` clause can discriminate on. -/
def PyError.typeName : PyError → String
  | .keyError _ => "KeyError"
  | .typeError _ => "TypeError"
  | .indexError _ => "IndexError"
  | .valueError _ => "ValueError"
  | .timerError _ => "TimerError"

/-- Left-pad a numeral string with zeros to the given width. -/
def padZeros (s : String) (width : Nat) : String :=
  String.mk (List.replicate (width - s.length) '0') ++ s

/-- Fixed-point rendering of a rational with `prec` digits after the point,
modelling the `f` presentation type of Python `format`.  Ties are rounded
half-up on the absolute value; CPython rounds the (binary) float half-even,
but the choice of tie-break is immaterial here and only needs to be
deterministic. -/
def renderFixed (q : ℚ) (prec : Nat) : String :=
  let sign := if q < 0 then "-" else ""
  let scaled : ℤ := ⌊|q| * (10 : ℚ) ^ prec + 1 / 2⌋
  let n := scaled.toNat
  let ip := n / 10 ^ prec
  let fp := n % 10 ^ prec
  if prec = 0 then sign ++ toString ip
  else sign ++ toString ip ++ "." ++ padZeros (toString fp) prec

/-- Drop trailing zeros of a fixed-point numeral, keeping one digit after the
point (so that a whole number renders like Python `str(2.0) = "2.0"`). -/
def trimFixed (s : String) : String :=
  let cs := s.data.reverse.dropWhile (fun c => c = '0')
  let cs := match cs with
    | '.' :: rest => '0' :: '.' :: rest
    | other => other
  String.mk cs.reverse

/-- Default (`str`) rendering of a float modelled as a rational.  CPython
prints the shortest decimal that round-trips the binary float; on a rational
model we render exactly (integers as `n.0`, otherwise a trimmed fixed-point
form).  No claim depends on the exact digits of this default rendering. -/
def renderDefault (q : ℚ) : String :=
  if q.den = 1 then toString q.num ++ ".0"
  else trimFixed (renderFixed q 17)

/-- Python `str()` of a formatting value. -/
def PyVal.render : PyVal → String
  | .str s => s
  | .num q => renderDefault q
  | .pyNone => "None"

/-- Parsed restricted format spec `[width]['.'prec]'f'` (covering the forms
the package's templates use, such as `0.4f`, `.2f`, `.0f`). -/
structure FixedSpec where
  zeroPad : Bool
  width : Nat
  prec : Nat
deriving DecidableEq

/-- Parse a format spec whose presentation type is `f`.  Returns `none` for
anything outside the restricted grammar. -/
def parseFixedSpec (spec : String) : Option FixedSpec :=
  match spec.data.reverse with
  | 'f' :: revBody =>
    let body := revBody.reverse
    let w := body.takeWhile (fun c => c.isDigit)
    let rest := body.dropWhile (fun c => c.isDigit)
    let prec? : Option Nat :=
      match rest with
      | [] => some 6
      | '.' :: ds => (String.mk ds).toNat?
      | _ => none
    match prec? with
    | some prec => some ⟨w.headD ' ' == '0', (String.mk w).toNat?.getD 0, prec⟩
    | none => none
  | _ => none

/-- Pad a rendered value to the requested minimum field width. -/
def padWidth (s : String) (zeroPad : Bool) (width : Nat) : String :=
  if width ≤ s.length then s
  else String.mk (List.replicate (width - s.length) (if zeroPad then '0' else ' ')) ++ s

/-- Format one replacement-field value against its format spec, as Python
`format(value, spec)` does: an empty spec falls back to `str`, a numeric `f`
spec renders fixed-point, and a non-empty spec on a non-float raises. -/
def formatValue (v : PyVal) (spec : String) : Except PyError String :=
  if spec.isEmpty then .ok v.render
  else
    match v with
    | .num q =>
      match parseFixedSpec spec with
      | some fs => .ok (padWidth (renderFixed q fs.prec) fs.zeroPad fs.width)
      | none => .error (.valueError ("Unknown format code in format spec " ++ spec))
    | .str _ => .error (.valueError "Unknown format code \x27f\x27 for object of type \x27str\x27")
    | .pyNone => .error (.typeError "unsupported format string passed to NoneType.__format__")

/-- One token of a parsed `str.format` template: a literal character or a
replacement field `\x7bfield:spec\x7d`. -/
inductive FmtTok where
  | lit (c : Char)
  | repl (field : String) (spec : String)
deriving DecidableEq

/-- Scan up to the closing brace of a replacement field, returning the field
content and the remainder of the template. -/
def takeUntilRBrace : List Char → Option (List Char × List Char)
  | [] => none
  | c :: cs =>
    if c = '}' then some ([], cs)
    else
      match takeUntilRBrace cs with
      | some (inner, rest) => some (c :: inner, rest)
      | none => none

/-- Split a replacement field at the first colon into field name and spec. -/
def splitFieldSpec (inner : List Char) : String × String :=
  let f := inner.takeWhile (fun c => c ≠ ':')
  let r := inner.dropWhile (fun c => c ≠ ':')
  (String.mk f, String.mk (r.drop 1))

/-- Tokenize a `str.format` template.  The fuel argument (instantiated with
the template length, which bounds the number of steps) makes the recursion
structural; it can never run out when so instantiated. -/
def tokenizeFmt : Nat → List Char → Except PyError (List FmtTok)
  | _, [] => .ok []
  | 0, _ => .error (.valueError "format string too long")
  | Nat.succ fuel, c :: cs =>
    if c = '{' then
      match cs with
      | '{' :: cs2 => (tokenizeFmt fuel cs2).map (fun ts => .lit '{' :: ts)
      | _ =>
        match takeUntilRBrace cs with
        | some (inner, rest) =>
          let fs := splitFieldSpec inner
          (tokenizeFmt fuel rest).map (fun ts => .repl fs.1 fs.2 :: ts)
        | none => .error (.valueError "Single \x27\x7b\x27 encountered in format string")
    else if c = '}' then
      match cs with
      | '}' :: cs2 => (tokenizeFmt fuel cs2).map (fun ts => .lit '}' :: ts)
      | _ => .error (.valueError "Single \x27\x7d\x27 encountered in format string")
    else (tokenizeFmt fuel cs).map (fun ts => .lit c :: ts)

/-- Render a token list: literals are copied, a replacement field is resolved
against the positional arguments (auto-numbered or explicit index) or the
keyword arguments, then formatted against its spec.  Missing keys raise
`KeyError`, missing positions `IndexError`, exactly as `str.format`. -/
def renderToks (pos : List PyVal) (kw : List (String × PyVal)) :
    List FmtTok → Nat → Except PyError String
  | [], _ => .ok ""
  | .lit c :: rest, auto => (renderToks pos kw rest auto).map (fun s => String.mk [c] ++ s)
  | .repl f sp :: rest, auto =>
    let va : Except PyError PyVal × Nat :=
      if f.isEmpty then
        (match pos.get? auto with
         | some v => .ok v
         | none => .error (.indexError "Replacement index out of range"), auto + 1)
      else if f.data.all (fun c => c.isDigit) then
        (match pos.get? (f.toNat?.getD 0) with
         | some v => .ok v
         | none => .error (.indexError "Replacement index out of range"), auto)
      else
        (match kw.lookup f with
         | some v => .ok v
         | none => .error (.keyError f), auto)
    match va.1 with
    | .error e => .error e
    | .ok v =>
      match formatValue v sp with
      | .error e => .error e
      | .ok s => (renderToks pos kw rest va.2).map (fun t => s ++ t)

/-- Model of Python `tmpl.format(pos0, pos1, ..., key=value, ...)`. -/
def pyFormat (tmpl : String) (pos : List PyVal) (kw : List (String × PyVal)) :
    Except PyError String :=
  match tokenizeFmt tmpl.length tmpl.data with
  | .error e => .error e
  | .ok ts => renderToks pos kw ts 0

/-- Replace the value stored under a key in an insertion-ordered association
list, or append the binding at the end if the key is absent — the update
discipline of a Python `dict`. -/
def updateAssoc {β : Type} (l : List (String × β)) (k : String) (v : β) :
    List (String × β) :=
  match l with
  | [] => [(k, v)]
  | (k0, v0) :: rest => if k0 == k then (k, v) :: rest else (k0, v0) :: updateAssoc rest k v

/-- The registry `Timers` (`codetiming/_timers.py`): `data` is the
`UserDict` backing store mapping a timer name to its cached cumulative
total, `_timings` is the private `defaultdict(list)` mapping a name to its
ordered sample sequence. -/
structure Timers where
  data : List (String × ℚ)
  _timings : List (String × List ℚ)
deriving DecidableEq

/-- A fresh `Timers()`: both mappings empty. -/
def Timers.empty : Timers := ⟨[], []⟩

/-- `Timers.add`: `self._timings[name].append(value)` (the defaultdict
supplies `[]` for a new name), then `self.data.setdefault(name, 0)` and
`self.data[name] += value`. -/
def Timers.add (tm : Timers) (name : String) (value : ℚ) : Timers :=
  let samples := (tm._timings.lookup name).getD []
  let total := (tm.data.lookup name).getD 0
  { data := updateAssoc tm.data name (total + value),
    _timings := updateAssoc tm._timings name (samples ++ [value]) }

/-- `Timers.clear`: `self.data.clear()` and `self._timings.clear()`. -/
def Timers.clear (_tm : Timers) : Timers := ⟨[], []⟩

/-- `Timers.__setitem__`: unconditionally raises `TypeError`; the registry is
returned unchanged alongside the exception. -/
def Timers.setItem (tm : Timers) (_name : String) (_value : ℚ) :
    Except PyError Unit × Timers :=
  (.error (.typeError
    "\x27Timers\x27 does not support item assignment. Use \x27.add()\x27 to update values."),
   tm)

/-- `Timers.__getitem__` (inherited from `UserDict`): read the cached
cumulative total, raising `KeyError` for an unknown name. -/
def Timers.getItem (tm : Timers) (name : String) : Except PyError ℚ :=
  match tm.data.lookup name with
  | some v => .ok v
  | none => .error (.keyError name)

/-- `Timers.apply` with an explicit name: apply `f` to the name's sample
sequence, raising `KeyError` for an unknown name.  (The `name=None`
overload, which maps `f` over the whole dictionary, is not needed by any
claim.) -/
def Timers.apply {α : Type} (tm : Timers) (f : List ℚ → α) (name : String) :
    Except PyError α :=
  match tm._timings.lookup name with
  | some v => .ok (f v)
  | none => .error (.keyError name)

/-- `min(values or [0])`: the replacement of an empty sequence by `[0]` is
folded in, so the empty case yields `0`. -/
def pyMin (values : List ℚ) : ℚ :=
  match values with
  | [] => 0
  | x :: xs => xs.foldl min x

/-- `max(values or [0])`. -/
def pyMax (values : List ℚ) : ℚ :=
  match values with
  | [] => 0
  | x :: xs => xs.foldl max x

/-- `statistics.mean(values or [0])`: the arithmetic mean. -/
def pyMean (values : List ℚ) : ℚ :=
  match values with
  | [] => 0
  | l => l.sum / (l.length : ℚ)

/-- `statistics.median(values or [0])`: sort, then take the middle element
(odd length) or the average of the two middle elements (even length). -/
def pyMedian (values : List ℚ) : ℚ :=
  let v := match values with | [] => [0] | l => l
  let s := v.mergeSort (fun a b => decide (a ≤ b))
  let n := v.length
  if n % 2 = 1 then s.getD (n / 2) 0
  else (s.getD (n / 2 - 1) 0 + s.getD (n / 2) 0) / 2

/-- `Timers.count`: `self.apply(len, name=name)`. -/
def Timers.count (tm : Timers) (name : String) : Except PyError Nat :=
  tm.apply List.length name

/-- `Timers.total`: `self.apply(sum, name=name)`. -/
def Timers.total (tm : Timers) (name : String) : Except PyError ℚ :=
  tm.apply List.sum name

/-- `Timers.min`: `self.apply(lambda values: min(values or [0]), name=name)`. -/
def Timers.min (tm : Timers) (name : String) : Except PyError ℚ :=
  tm.apply pyMin name

/-- `Timers.max`. -/
def Timers.max (tm : Timers) (name : String) : Except PyError ℚ :=
  tm.apply pyMax name

/-- `Timers.mean`. -/
def Timers.mean (tm : Timers) (name : String) : Except PyError ℚ :=
  tm.apply pyMean name

/-- `Timers.median`. -/
def Timers.median (tm : Timers) (name : String) : Except PyError ℚ :=
  tm.apply pyMedian name

/-- Result of `statistics.stdev`: either the float `nan` (fewer than two
samples), or the square root of the sample variance.  A square root of a
rational is kept symbolically as `sqrtOf variance`, which loses no
information since the variance is non-negative and squaring is injective
there. -/
inductive StdevResult where
  | nan
  | sqrtOf (variance : ℚ)
deriving DecidableEq

/-- The sample variance `sum((x - mean)^2) / (n - 1)` underlying
`statistics.stdev`; meaningful for `n ≥ 2`. -/
def sampleVariance (l : List ℚ) : ℚ :=
  let n : ℚ := l.length
  ((l.map (fun x => (x - l.sum / n) ^ 2)).sum) / (n - 1)

/-- `Timers.stdev` with an explicit name: `statistics.stdev(value)` when the
name has at least two samples, `math.nan` otherwise; `KeyError` for an
unknown name. -/
def Timers.stdev (tm : Timers) (name : String) : Except PyError StdevResult :=
  match tm._timings.lookup name with
  | some value => .ok (if 2 ≤ value.length then .sqrtOf (sampleVariance value) else .nan)
  | none => .error (.keyError name)

/-- The `text` attribute of a `Timer`: a literal template, or a callable of
the elapsed seconds returning a value that is coerced with `str()`. -/
inductive TextSpec where
  | literal (template : String)
  | callable (f : ℚ → PyVal)

/-- The `initial_text` attribute: `False`/`True`, a string template, or a
callable object (the `FloatArg` protocol of the source). -/
inductive InitialTextSpec where
  | bool (b : Bool)
  | str (s : String)
  | callable (f : ℚ → PyVal)

/-- Python truthiness of `self.name : Optional[str]`: `None` and the empty
string are falsy. -/
def truthyName : Option String → Bool
  | some s => !s.isEmpty
  | none => false

/-- Python truthiness of `self.initial_text`: `False` and the empty string
are falsy; `True`, non-empty strings and callables are truthy. -/
def InitialTextSpec.truthy : InitialTextSpec → Bool
  | .bool b => b
  | .str s => !s.isEmpty
  | .callable _ => true

/-- The `name` object as passed into `str.format` keyword arguments. -/
def pyvalOfName : Option String → PyVal
  | some s => .str s
  | none => .pyNone

/-- The `Timer` dataclass: `logger` is modelled by its presence (the sink is
an injected capability; emitted strings are collected in results), `last`
starts as `math.nan` (modelled as `none`), `_start_time` is the
running-state marker. -/
structure Timer where
  name : Option String := none
  text : TextSpec := .literal "Elapsed time: \x7b:0.4f\x7d seconds"
  initial_text : InitialTextSpec := .bool false
  logger : Bool := true
  last : Option ℚ := none
  _start_time : Option ℚ := none

/-- The initial message computed by `Timer.start` (the body of
`if self.logger and self.initial_text:`): a string `initial_text` has only
`name` substituted; any other truthy `initial_text` — `True`, but also a
callable, which this code never invokes — selects the default message. -/
def Timer.initialMessage (t : Timer) : Except PyError (Option String) :=
  if t.logger && t.initial_text.truthy then
    match t.initial_text with
    | .str s => (pyFormat s [] [("name", pyvalOfName t.name)]).map some
    | _ =>
      if truthyName t.name then
        (pyFormat "Timer \x7bname\x7d started" [] [("name", pyvalOfName t.name)]).map some
      else .ok (some "Timer started")
  else .ok none

/-- Outcome of `Timer.start`: the raised exception if any, the timer object
after the call, and the strings emitted through the sink. -/
structure StartResult where
  ret : Except PyError Unit
  timer : Timer
  emitted : List String

/-- `Timer.start`: raises `TimerError` if already running; otherwise emits
the initial message (if configured) and records the clock reading sampled
after the emission.  A formatting error propagates before `_start_time`
is assigned. -/
def Timer.start (t : Timer) (now : ℚ) : StartResult :=
  match t._start_time with
  | some _ => ⟨.error (.timerError "Timer is running. Use .stop() to stop it"), t, []⟩
  | none =>
    match t.initialMessage with
    | .error e => ⟨.error e, t, []⟩
    | .ok m => ⟨.ok (), { t with _start_time := some now }, m.toList⟩

/-- The report computed by `Timer.stop` for elapsed time `dur` (the body of
`if self.logger:`): a callable `text` is invoked with the duration and its
result coerced with `str()`; otherwise the template is substituted with the
positional duration and the `name`, `milliseconds`, `seconds` and `minutes`
attributes. -/
def Timer.reportMessage (t : Timer) (dur : ℚ) : Except PyError (Option String) :=
  if t.logger then
    match t.text with
    | .callable f => .ok (some (f dur).render)
    | .literal tmpl =>
      (pyFormat tmpl [.num dur]
        [("name", pyvalOfName t.name), ("milliseconds", .num (dur * 1000)),
         ("seconds", .num dur), ("minutes", .num (dur / 60))]).map some
  else .ok none

/-- Outcome of `Timer.stop`: the returned duration or raised exception, the
timer object after the call, the registry after the call, and the strings
emitted through the sink. -/
structure StopResult where
  ret : Except PyError ℚ
  timer : Timer
  timers : Timers
  emitted : List String

/-- `Timer.stop`: raises `TimerError` if idle; otherwise sets
`last = now - _start_time`, clears `_start_time`, emits the report, adds
`last` to the registry when `name` is truthy, and returns `last`.  A
formatting error propagates after `last`/`_start_time` are updated but
before the registry is touched. -/
def Timer.stop (t : Timer) (registry : Timers) (now : ℚ) : StopResult :=
  match t._start_time with
  | none => ⟨.error (.timerError "Timer is not running. Use .start() to start it"), t, registry, []⟩
  | some s0 =>
    let dur := now - s0
    let t1 := { t with last := some dur, _start_time := none }
    match t.reportMessage dur with
    | .error e => ⟨.error e, t1, registry, []⟩
    | .ok m =>
      let registry1 :=
        match t.name with
        | some n => if n.isEmpty then registry else registry.add n dur
        | none => registry
      ⟨.ok dur, t1, registry1, m.toList⟩

/-- The registry states reachable from the empty registry by `add` and
`clear` calls. -/
inductive Reachable : Timers → Prop where
  | empty : Reachable Timers.empty
  | add (tm : Timers) (name : String) (value : ℚ) :
      Reachable tm → Reachable (tm.add name value)
  | clear (tm : Timers) : Reachable tm → Reachable tm.clear

instance {ε α : Type} [DecidableEq ε] [DecidableEq α] : DecidableEq (Except ε α)
  | .ok a, .ok b =>
    if h : a = b then .isTrue (by rw [h]) else .isFalse (fun hh => h (Except.ok.inj hh))
  | .ok _, .error _ => .isFalse (fun hh => Except.noConfusion hh)
  | .error _, .ok _ => .isFalse (fun hh => Except.noConfusion hh)
  | .error a, .error b =>
    if h : a = b then .isTrue (by rw [h]) else .isFalse (fun hh => h (Except.error.inj hh))

/-- The consistency invariant tying the cached totals to the sample
sequences: every cached total is exactly the sum of the name's samples, and
the two mappings have the same keys. -/
def TimersInv (tm : Timers) : Prop :=
  ∀ name : String, tm.data.lookup name = (tm._timings.lookup name).map List.sum

theorem lookup_updateAssoc_self {β : Type} (l : List (String × β)) (k : String) (v : β) :
    (updateAssoc l k v).lookup k = some v := by
  induction l with
  | nil => simp [updateAssoc, List.lookup]
  | cons hd tl ih =>
    obtain ⟨k0, v0⟩ := hd
    by_cases h : k0 = k
    · subst h
      simp [updateAssoc, List.lookup]
    · simp only [updateAssoc]
      rw [if_neg (by simpa using h)]
      rw [List.lookup]
      have : (k == k0) = false := by simpa using Ne.symm h
      simp [this, ih]

theorem lookup_updateAssoc_ne {β : Type} (l : List (String × β)) (k k' : String) (v : β)
    (h : k' ≠ k) : (updateAssoc l k v).lookup k' = l.lookup k' := by
  induction l with
  | nil =>
    have h1 : (k' == k) = false := by simpa using h
    simp [updateAssoc, List.lookup, h1]
  | cons hd tl ih =>
    obtain ⟨k0, v0⟩ := hd
    by_cases h0 : k0 = k
    · subst h0
      simp only [updateAssoc]
      rw [if_pos (by simp)]
      rw [List.lookup, List.lookup]
      have h1 : (k' == k0) = false := by simpa using h
      simp [h1]
    · simp only [updateAssoc]
      rw [if_neg (by simpa using h0)]
      rw [List.lookup, List.lookup]
      cases hkk : (k' == k0) with
      | true => simp
      | false => simpa using ih

theorem timersInv_empty : TimersInv Timers.empty := by
  intro name
  simp [Timers.empty, List.lookup]

theorem timersInv_add (tm : Timers) (name : String) (value : ℚ) (h : TimersInv tm) :
    TimersInv (tm.add name value) := by
  intro n
  by_cases hn : n = name
  · subst hn
    simp only [Timers.add]
    rw [lookup_updateAssoc_self, lookup_updateAssoc_self]
    have hd := h n
    cases ht : tm._timings.lookup n with
    | none =>
      rw [ht] at hd
      simp [ht, hd]
    | some l0 =>
      rw [ht] at hd
      simp [ht, hd]
  · simp only [Timers.add]
    rw [lookup_updateAssoc_ne _ _ _ _ hn, lookup_updateAssoc_ne _ _ _ _ hn]
    exact h n

theorem timersInv_clear (tm : Timers) : TimersInv tm.clear := by
  intro name
  simp [Timers.clear, List.lookup]

theorem reachable_inv {tm : Timers} (h : Reachable tm) : TimersInv tm := by
  induction h with
  | empty => exact timersInv_empty
  | add tm0 name value _ ih => exact timersInv_add tm0 name value ih
  | clear tm0 _ => exact timersInv_clear tm0

/-- C1: in every registry state reachable from the empty registry by `add`
and `clear` calls, every present name satisfies: the derived total equals the
sum of its sample sequence, the count equals the length of that sequence, and
the cached cumulative total read by indexing equals the same sum. -/
theorem registry_consistency (tm : Timers) (h : Reachable tm) (name : String)
    (l : List ℚ) (hl : tm._timings.lookup name = some l) :
    tm.total name = .ok l.sum ∧ tm.count name = .ok l.length ∧
    tm.getItem name = .ok l.sum := by
  have hd := reachable_inv h name
  rw [hl] at hd
  refine ⟨?_, ?_, ?_⟩
  · simp [Timers.total, Timers.apply, hl]
  · simp [Timers.count, Timers.apply, hl]
  · simp [Timers.getItem, hd]

/-- Witness for C1: a concrete `add`/`clear`/`add`/`add` history, with the
invariant instantiated at the surviving name. -/
theorem registry_consistency_witness :
    (((Timers.empty.add "a" 1).clear.add "b" 2).add "b" 3).total "b" = .ok 5 ∧
    (((Timers.empty.add "a" 1).clear.add "b" 2).add "b" 3).count "b" = .ok 2 ∧
    (((Timers.empty.add "a" 1).clear.add "b" 2).add "b" 3).getItem "b" = .ok 5 := by
  have hr : Reachable (((Timers.empty.add "a" 1).clear.add "b" 2).add "b" 3) :=
    Reachable.add _ _ _ (Reachable.add _ _ _ (Reachable.clear _ (Reachable.add _ _ _ Reachable.empty)))
  have h := registry_consistency _ hr "b" [2, 3] (by decide)
  refine ⟨?_, ?_, ?_⟩
  · rw [h.1]; norm_num
  · rw [h.2.1]; decide
  · rw [h.2.2]; norm_num

/-- C3: `start()` on a running timer and `stop()` on an idle timer each fail
synchronously with the corresponding `TimerError`, emit nothing, and leave
the timer object, and for `stop()` the registry, unchanged. -/
theorem protocol_violations_atomic (t1 t2 : Timer) (reg : Timers) (now s0 : ℚ)
    (hrun : t1._start_time = some s0) (hidle : t2._start_time = none) :
    ((t1.start now).ret = .error (.timerError "Timer is running. Use .stop() to stop it") ∧
     (t1.start now).timer = t1 ∧ (t1.start now).emitted = []) ∧
    ((t2.stop reg now).ret = .error (.timerError "Timer is not running. Use .start() to start it") ∧
     (t2.stop reg now).timer = t2 ∧ (t2.stop reg now).timers = reg ∧
     (t2.stop reg now).emitted = []) := by
  refine ⟨?_, ?_⟩
  · simp [Timer.start, hrun]
  · simp [Timer.stop, hidle]

/-- Witness for C3 at concrete timers. -/
theorem protocol_violations_atomic_witness :
    (Timer.start { _start_time := some 0 } 0).ret =
      .error (.timerError "Timer is running. Use .stop() to stop it") ∧
    (Timer.stop { } Timers.empty 0).ret =
      .error (.timerError "Timer is not running. Use .start() to start it") ∧
    (Timer.stop { } Timers.empty 0).timers = Timers.empty := by
  have h := protocol_violations_atomic { _start_time := some 0 } { } Timers.empty 0 0 rfl rfl
  exact ⟨h.1.1, h.2.1, h.2.2.2.1⟩

/-- C4: item assignment on the registry always raises `TypeError` and leaves
the registry (both the totals and the sample sequences) unchanged, for every
name and value; the read accessors are pure, so `add` is the only mutation
path besides `clear`. -/
theorem setitem_always_rejected (tm : Timers) (name : String) (value : ℚ) :
    (tm.setItem name value).1 =
      .error (.typeError
        "\x27Timers\x27 does not support item assignment. Use \x27.add()\x27 to update values.") ∧
    (tm.setItem name value).2 = tm :=
  ⟨rfl, rfl⟩

/-- C5: every statistics query on a name absent from the sample mapping (one
never `add()`-ed, or removed by `clear()`, which empties the mapping) raises
`KeyError`, and `stdev` on fewer than two samples returns `nan` instead of
failing. -/
theorem missing_name_errors_and_small_stdev_nan (tm : Timers) (name : String) :
    (tm._timings.lookup name = none →
      tm.total name = .error (.keyError name) ∧
      tm.count name = .error (.keyError name) ∧
      tm.min name = .error (.keyError name) ∧
      tm.max name = .error (.keyError name) ∧
      tm.mean name = .error (.keyError name) ∧
      tm.median name = .error (.keyError name) ∧
      tm.stdev name = .error (.keyError name)) ∧
    (∀ l, tm._timings.lookup name = some l → l.length < 2 → tm.stdev name = .ok .nan) := by
  constructor
  · intro h
    refine ⟨?_, ?_, ?_, ?_, ?_, ?_, ?_⟩ <;>
      simp [Timers.total, Timers.count, Timers.min, Timers.max, Timers.mean,
            Timers.median, Timers.stdev, Timers.apply, h]
  · intro l hl hlen
    have h2 : ¬ 2 ≤ l.length := by omega
    simp [Timers.stdev, hl, h2]

/-- Witness for C5: the empty registry errors on an unknown name, and a
single-sample name yields `nan` for `stdev`. -/
theorem missing_name_errors_witness :
    Timers.empty.total "x" = .error (.keyError "x") ∧
    Timers.empty.stdev "x" = .error (.keyError "x") ∧
    (Timers.empty.add "a" 1).stdev "a" = .ok .nan := by
  have h1 := (missing_name_errors_and_small_stdev_nan Timers.empty "x").1 rfl
  have h2 := (missing_name_errors_and_small_stdev_nan (Timers.empty.add "a" 1) "a").2
    [1] (by decide) (by decide)
  exact ⟨h1.1, h1.2.2.2.2.2.2, h2⟩

/-- C8 counterexample: the two protocol violations are raised through the
same exception class `TimerError`, not through two distinct error types —
the Python type tag of both raised errors is identical. -/
theorem timer_errors_same_type :
    (Timer.stop { } Timers.empty 0).ret =
      .error (.timerError "Timer is not running. Use .start() to start it") ∧
    (Timer.start { _start_time := some 0 } 0).ret =
      .error (.timerError "Timer is running. Use .stop() to stop it") ∧
    PyError.typeName (.timerError "Timer is not running. Use .start() to start it") =
      PyError.typeName (.timerError "Timer is running. Use .stop() to stop it") :=
  ⟨rfl, rfl, rfl⟩

/-- C8 amended: both protocol violations are reported through the single
exception type `TimerError`; the two failure cases carry distinct messages,
so a caller can distinguish them by message though not by type. -/
theorem timer_error_distinguished_by_message (t1 t2 : Timer) (reg : Timers) (now s0 : ℚ)
    (hrun : t1._start_time = some s0) (hidle : t2._start_time = none) :
    (t1.start now).ret = .error (.timerError "Timer is running. Use .stop() to stop it") ∧
    (t2.stop reg now).ret = .error (.timerError "Timer is not running. Use .start() to start it") ∧
    PyError.typeName (.timerError "Timer is running. Use .stop() to stop it") = "TimerError" ∧
    PyError.typeName (.timerError "Timer is not running. Use .start() to start it") = "TimerError" ∧
    ("Timer is running. Use .stop() to stop it" : String) ≠
      "Timer is not running. Use .start() to start it" := by
  refine ⟨?_, ?_, rfl, rfl, by decide⟩
  · simp [Timer.start, hrun]
  · simp [Timer.stop, hidle]

/-- Witness for the amended C8 at concrete timers. -/
theorem timer_error_distinguished_witness :
    (Timer.start { _start_time := some 1 } 1).ret =
      .error (.timerError "Timer is running. Use .stop() to stop it") ∧
    (Timer.stop { name := some "w" } Timers.empty 1).ret =
      .error (.timerError "Timer is not running. Use .start() to start it") := by
  have h := timer_error_distinguished_by_message { _start_time := some 1 } { name := some "w" }
    Timers.empty 1 1 rfl rfl
  exact ⟨h.1, h.2.1⟩

theorem pyFormat_timer_started (n : String) :
    pyFormat "Timer \x7bname\x7d started" [] [("name", PyVal.str n)] =
      .ok ("Timer " ++ n ++ " started") := by
  obtain ⟨data⟩ := n
  rfl

/-- C2: for every running timer whose report rendering does not raise,
`stop()` sets `last` to the difference between the clock reading and
`running_since`, clears `running_since` (returning the timer to idle), and
returns that value; when the timer carries a (truthy) name, exactly that
value is added to the registry under the name, and otherwise the registry is
untouched. -/
theorem stop_running_behavior (t : Timer) (reg : Timers) (now s0 : ℚ)
    (m : Option String)
    (hrun : t._start_time = some s0)
    (hmsg : t.reportMessage (now - s0) = .ok m) :
    (t.stop reg now).ret = .ok (now - s0) ∧
    (t.stop reg now).timer.last = some (now - s0) ∧
    (t.stop reg now).timer._start_time = none ∧
    (∀ n, t.name = some n → ¬ n.isEmpty →
      (t.stop reg now).timers = reg.add n (now - s0)) ∧
    (truthyName t.name = false → (t.stop reg now).timers = reg) := by
  refine ⟨?_, ?_, ?_, fun n hn hne => ?_, fun hf => ?_⟩
  · simp [Timer.stop, hrun, hmsg]
  · simp [Timer.stop, hrun, hmsg]
  · simp [Timer.stop, hrun, hmsg]
  · simp [Timer.stop, hrun, hmsg, hn, hne]
  · cases hn : t.name with
    | none => simp [Timer.stop, hrun, hmsg, hn]
    | some n =>
      have hne : n.isEmpty = true := by simpa [truthyName, hn] using hf
      simp [Timer.stop, hrun, hmsg, hn, hne]

/-- Witness for C2: stopping a running timer named `x` and an unnamed
running timer, both with the default report template, started at clock 0 and
stopped at clock 2. -/
theorem stop_running_behavior_witness :
    (Timer.stop { name := some "x", _start_time := some 0 } Timers.empty 2).ret = .ok (2 - 0) ∧
    (Timer.stop { name := some "x", _start_time := some 0 } Timers.empty 2).timer.last
      = some (2 - 0) ∧
    (Timer.stop { name := some "x", _start_time := some 0 } Timers.empty 2).timer._start_time
      = none ∧
    (Timer.stop { name := some "x", _start_time := some 0 } Timers.empty 2).timers
      = Timers.empty.add "x" (2 - 0) ∧
    (Timer.stop { _start_time := some 0 } Timers.empty 2).ret = .ok (2 - 0) ∧
    (Timer.stop { _start_time := some 0 } Timers.empty 2).timer._start_time = none ∧
    (Timer.stop { _start_time := some 0 } Timers.empty 2).timers = Timers.empty := by
  have h1 := stop_running_behavior { name := some "x", _start_time := some 0 } Timers.empty 2 0
    (some "Elapsed time: 2.0000 seconds") rfl (by with_unfolding_all decide)
  have h2 := stop_running_behavior { _start_time := some 0 } Timers.empty 2 0
    (some "Elapsed time: 2.0000 seconds") rfl (by with_unfolding_all decide)
  exact ⟨h1.1, h1.2.1, h1.2.2.1, h1.2.2.2.1 "x" rfl (by decide),
    h2.1, h2.2.2.1, h2.2.2.2.2 rfl⟩

/-- C6: the report emitted by `stop()` — a callable `text` is applied to
`last` and its result coerced with `str()`; a template `text` is substituted
with the positional duration and the named values `name`,
`milliseconds = last * 1000`, `seconds = last`, `minutes = last / 60`. -/
theorem stop_report_formatting (t : Timer) (reg : Timers) (now s0 : ℚ)
    (hrun : t._start_time = some s0) (hlog : t.logger = true) :
    (∀ f, t.text = .callable f →
      (t.stop reg now).emitted = [(f (now - s0)).render]) ∧
    (∀ tmpl, t.text = .literal tmpl →
      (t.stop reg now).emitted =
        (pyFormat tmpl [.num (now - s0)]
          [("name", pyvalOfName t.name), ("milliseconds", .num ((now - s0) * 1000)),
           ("seconds", .num (now - s0)), ("minutes", .num ((now - s0) / 60))]).toOption.toList) := by
  constructor
  · intro f hf
    simp [Timer.stop, hrun, Timer.reportMessage, hlog, hf]
  · intro tmpl ht
    simp only [Timer.stop, hrun]
    simp only [Timer.reportMessage, hlog, ht, if_true]
    cases hp : pyFormat tmpl [.num (now - s0)]
        [("name", pyvalOfName t.name), ("milliseconds", .num ((now - s0) * 1000)),
         ("seconds", .num (now - s0)), ("minutes", .num ((now - s0) / 60))] with
    | error e => simp [hp, Except.map, Except.toOption]
    | ok msg => simp [hp, Except.map, Except.toOption]

/-- Witness for C6: a callable report and a template report, evaluated. -/
theorem stop_report_formatting_witness :
    (Timer.stop { text := .callable (fun _ => .str "done"), _start_time := some 0 }
        Timers.empty 2).emitted = [(PyVal.str "done").render] ∧
    (Timer.stop { name := some "X", text := .literal "\x7bname\x7d finished", _start_time := some 0 }
        Timers.empty 2).emitted = ["X finished"] := by
  constructor
  · exact (stop_report_formatting
      { text := .callable (fun _ => .str "done"), _start_time := some 0 }
      Timers.empty 2 0 rfl rfl).1 _ rfl
  · have h := (stop_report_formatting
      { name := some "X", text := .literal "\x7bname\x7d finished", _start_time := some 0 }
      Timers.empty 2 0 rfl rfl).2 "\x7bname\x7d finished" rfl
    rw [h]
    with_unfolding_all decide

/-- C7 counterexample: a callable `initial_text` is never invoked by
`start()` — the emitted initial message is the no-name default, not the
callable's result. -/
theorem initial_text_callable_not_invoked :
    (Timer.start { logger := true, initial_text := .callable (fun _ => .str "CUSTOM") } 0).emitted
      = ["Timer started"] ∧
    ("Timer started" : String) ≠ "CUSTOM" :=
  ⟨rfl, by decide⟩

/-- C7 amended: with a sink present and a truthy `initial_text`, `start()`
emits — for `initial_text = True`: the default message, `Timer n started`
when the timer's name `n` is truthy and `Timer started` otherwise; for a
string `initial_text`: the string with only the `name` placeholder
substituted; for a callable `initial_text`: the callable is never invoked,
and the call behaves exactly as if `initial_text` were `True`. -/
theorem start_initial_message_rule (t : Timer) (now : ℚ)
    (hidle : t._start_time = none) (hlog : t.logger = true) :
    (t.initial_text = .bool true →
      (∀ n, t.name = some n → ¬ n.isEmpty →
        (t.start now).emitted = ["Timer " ++ n ++ " started"]) ∧
      (truthyName t.name = false → (t.start now).emitted = ["Timer started"])) ∧
    (∀ s, t.initial_text = .str s → ¬ s.isEmpty →
      (t.start now).emitted =
        (pyFormat s [] [("name", pyvalOfName t.name)]).toOption.toList) ∧
    (∀ f, t.initial_text = .callable f →
      (t.start now).ret = (Timer.start { t with initial_text := .bool true } now).ret ∧
      (t.start now).emitted = (Timer.start { t with initial_text := .bool true } now).emitted) := by
  refine ⟨fun hb => ⟨fun n hn hne => ?_, fun hf => ?_⟩, fun s hs hne => ?_, fun f hc => ?_⟩
  · simp [Timer.start, hidle, Timer.initialMessage, hlog, hb, hn, truthyName, hne,
      pyvalOfName, pyFormat_timer_started n, InitialTextSpec.truthy, Except.map]
  · simp [Timer.start, hidle, Timer.initialMessage, hlog, hb, hf, InitialTextSpec.truthy]
  · simp only [Timer.start, hidle]
    simp only [Timer.initialMessage, hlog, hs, InitialTextSpec.truthy]
    have hb : (!s.isEmpty) = true := by simpa using hne
    rw [hb]
    cases hp : pyFormat s [] [("name", pyvalOfName t.name)] with
    | error e => simp [hp, Except.map, Except.toOption]
    | ok msg => simp [hp, Except.map, Except.toOption]
  · constructor <;>
    · simp only [Timer.start, hidle, Timer.initialMessage, hlog, hc, InitialTextSpec.truthy,
        Bool.and_true, Bool.and_self, if_true]
      cases htn : truthyName t.name with
      | true =>
        cases hp : pyFormat "Timer \x7bname\x7d started" [] [("name", pyvalOfName t.name)] with
        | error e => simp [hp, Except.map]
        | ok m => simp [hp, Except.map]
      | false => simp

/-- Witness for the amended C7: the three `initial_text` shapes at concrete
timers. -/
theorem start_initial_message_rule_witness :
    (Timer.start { name := some "n", initial_text := .bool true } 0).emitted
      = ["Timer " ++ "n" ++ " started"] ∧
    (Timer.start { name := some "p", initial_text := .str "Starting \x7bname\x7d" } 0).emitted
      = (pyFormat "Starting \x7bname\x7d" [] [("name", pyvalOfName (some "p"))]).toOption.toList ∧
    (Timer.start { initial_text := .callable (fun _ => .str "ignored") } 0).emitted
      = (Timer.start { initial_text := InitialTextSpec.bool true } 0).emitted := by
  refine ⟨?_, ?_, ?_⟩
  · exact ((start_initial_message_rule { name := some "n", initial_text := .bool true } 0
      rfl rfl).1 rfl).1 "n" rfl (by decide)
  · exact (start_initial_message_rule { name := some "p", initial_text := .str "Starting \x7bname\x7d" }
      0 rfl rfl).2.1 "Starting \x7bname\x7d" rfl (by decide)
  · exact ((start_initial_message_rule { initial_text := .callable (fun _ => .str "ignored") }
      0 rfl rfl).2.2 (fun _ => .str "ignored") rfl).2

/-- C10: a timer whose name is the empty string is treated as unnamed —
`stop()` does not deposit into the registry (the name test is truthiness),
and `start()` with `initial_text = True` emits the no-name default. -/
theorem empty_string_name_unnamed (t1 t2 : Timer) (reg : Timers) (now s0 : ℚ)
    (hn1 : t1.name = some "") (hrun : t1._start_time = some s0)
    (hn2 : t2.name = some "") (hidle : t2._start_time = none)
    (hit : t2.initial_text = .bool true) (hlog : t2.logger = true) :
    (t1.stop reg now).timers = reg ∧
    (t2.start now).emitted = ["Timer started"] ∧
    (t2.start now).ret = .ok () := by
  refine ⟨?_, ?_, ?_⟩
  · simp only [Timer.stop, hrun]
    cases hm : t1.reportMessage (now - s0) with
    | error e => simp [hm]
    | ok m =>
      simp [hm, hn1]
      exact fun h => absurd h (by decide)
  · simp [Timer.start, hidle, Timer.initialMessage, hlog, hit, hn2, truthyName,
      InitialTextSpec.truthy, show ("".isEmpty = true) from rfl]
  · simp [Timer.start, hidle, Timer.initialMessage, hlog, hit, hn2, truthyName,
      InitialTextSpec.truthy, show ("".isEmpty = true) from rfl]

/-- Witness for C10 at concrete timers named by the empty string. -/
theorem empty_string_name_unnamed_witness :
    (Timer.stop { name := some "", _start_time := some 0 } Timers.empty 1).timers
      = Timers.empty ∧
    (Timer.start { name := some "", initial_text := .bool true } 0).emitted
      = ["Timer started"] := by
  have h := empty_string_name_unnamed { name := some "", _start_time := some 0 }
    { name := some "", initial_text := .bool true } Timers.empty 1 0 rfl rfl rfl rfl rfl rfl
  exact ⟨h.1, h.2.1⟩

theorem foldl_min_le (xs : List ℚ) (a : ℚ) : ∀ x ∈ a :: xs, xs.foldl min a ≤ x := by
  induction xs generalizing a with
  | nil =>
    intro x hx
    simp only [List.mem_singleton] at hx
    simp [hx]
  | cons b bs ih =>
    intro x hx
    have hfold : (b :: bs).foldl min a = bs.foldl min (min a b) := rfl
    rw [hfold]
    rcases List.mem_cons.mp hx with h | h
    · subst h
      exact le_trans (ih (min x b) (min x b) (List.mem_cons_self _ _)) (min_le_left x b)
    · rcases List.mem_cons.mp h with h2 | h2
      · subst h2
        exact le_trans (ih (min a x) (min a x) (List.mem_cons_self _ _)) (min_le_right a x)
      · exact ih (min a b) x (List.mem_cons.mpr (Or.inr h2))

theorem le_foldl_max (xs : List ℚ) (a : ℚ) : ∀ x ∈ a :: xs, x ≤ xs.foldl max a := by
  induction xs generalizing a with
  | nil =>
    intro x hx
    simp only [List.mem_singleton] at hx
    simp [hx]
  | cons b bs ih =>
    intro x hx
    have hfold : (b :: bs).foldl max a = bs.foldl max (max a b) := rfl
    rw [hfold]
    rcases List.mem_cons.mp hx with h | h
    · subst h
      exact le_trans (le_max_left x b) (ih (max x b) (max x b) (List.mem_cons_self _ _))
    · rcases List.mem_cons.mp h with h2 | h2
      · subst h2
        exact le_trans (le_max_right a x) (ih (max a x) (max a x) (List.mem_cons_self _ _))
      · exact ih (max a b) x (List.mem_cons.mpr (Or.inr h2))

theorem pyMin_le_of_mem {l : List ℚ} {x : ℚ} (hx : x ∈ l) : pyMin l ≤ x := by
  cases l with
  | nil => simp at hx
  | cons a as => exact foldl_min_le as a x hx

theorem le_pyMax_of_mem {l : List ℚ} {x : ℚ} (hx : x ∈ l) : x ≤ pyMax l := by
  cases l with
  | nil => simp at hx
  | cons a as => exact le_foldl_max as a x hx

theorem mul_length_le_sum (l : List ℚ) (m : ℚ) (h : ∀ x ∈ l, m ≤ x) :
    m * l.length ≤ l.sum := by
  induction l with
  | nil => simp
  | cons a as ih =>
    have h1 : m ≤ a := h a (List.mem_cons_self _ _)
    have h2 := ih (fun x hx => h x (List.mem_cons.mpr (Or.inr hx)))
    simp only [List.sum_cons, List.length_cons]
    push_cast
    linarith

theorem pyMin_le_pyMean {l : List ℚ} (h : l ≠ []) : pyMin l ≤ pyMean l := by
  cases l with
  | nil => exact absurd rfl h
  | cons a as =>
    have hlen : (0 : ℚ) < ((a :: as).length : ℚ) := by
      exact_mod_cast Nat.succ_pos as.length
    have hsum := mul_length_le_sum (a :: as) (pyMin (a :: as))
      (fun x hx => pyMin_le_of_mem hx)
    have hmean : pyMean (a :: as) = (a :: as).sum / ((a :: as).length : ℚ) := rfl
    rw [hmean, le_div_iff hlen]
    exact hsum

theorem getD_mem {l : List ℚ} {i : Nat} (h : i < l.length) : l.getD i 0 ∈ l := by
  induction l generalizing i with
  | nil => simp at h
  | cons a as ih =>
    cases i with
    | zero => exact List.mem_cons_self a as
    | succ j => exact List.mem_cons_of_mem a (ih (by simpa using h))

theorem pyMedian_mem_bounds {l : List ℚ} (h : l ≠ []) :
    pyMin l ≤ pyMedian l ∧ pyMedian l ≤ pyMax l := by
  cases l with
  | nil => exact absurd rfl h
  | cons a as =>
    have hmem : ∀ i, i < (a :: as).length →
        ((a :: as).mergeSort (fun x y => decide (x ≤ y))).getD i 0 ∈ a :: as := by
      intro i hi
      have hlen : i < ((a :: as).mergeSort (fun x y => decide (x ≤ y))).length := by
        simpa using hi
      exact List.mem_mergeSort.mp (getD_mem hlen)
    have hmed : pyMedian (a :: as) =
        (if (a :: as).length % 2 = 1 then
          ((a :: as).mergeSort (fun x y => decide (x ≤ y))).getD ((a :: as).length / 2) 0
        else
          (((a :: as).mergeSort (fun x y => decide (x ≤ y))).getD ((a :: as).length / 2 - 1) 0 +
           ((a :: as).mergeSort (fun x y => decide (x ≤ y))).getD ((a :: as).length / 2) 0) / 2) :=
      rfl
    rw [hmed]
    by_cases hodd : (a :: as).length % 2 = 1
    · rw [if_pos hodd]
      have hi : (a :: as).length / 2 < (a :: as).length :=
        Nat.div_lt_self (Nat.succ_pos as.length) (by omega)
      exact ⟨pyMin_le_of_mem (hmem _ hi), le_pyMax_of_mem (hmem _ hi)⟩
    · rw [if_neg hodd]
      have hge : 2 ≤ (a :: as).length := by
        have := Nat.succ_pos as.length
        simp only [List.length_cons] at *
        omega
      have hi2 : (a :: as).length / 2 < (a :: as).length :=
        Nat.div_lt_self (Nat.succ_pos as.length) (by omega)
      have hi1 : (a :: as).length / 2 - 1 < (a :: as).length := by omega
      have hx := hmem _ hi1
      have hy := hmem _ hi2
      constructor
      · have h1 := pyMin_le_of_mem hx
        have h2 := pyMin_le_of_mem hy
        linarith
      · have h1 := le_pyMax_of_mem hx
        have h2 := le_pyMax_of_mem hy
        linarith

/-- C9: for every name with a non-empty sample sequence, the derived
statistics satisfy `min ≤ median ≤ max` and `mean ≥ min`. -/
theorem stats_ordering (tm : Timers) (name : String) (l : List ℚ)
    (hl : tm._timings.lookup name = some l) (hne : l ≠ []) :
    tm.min name = .ok (pyMin l) ∧ tm.max name = .ok (pyMax l) ∧
    tm.mean name = .ok (pyMean l) ∧ tm.median name = .ok (pyMedian l) ∧
    pyMin l ≤ pyMedian l ∧ pyMedian l ≤ pyMax l ∧ pyMin l ≤ pyMean l := by
  have hb := pyMedian_mem_bounds hne
  refine ⟨?_, ?_, ?_, ?_, hb.1, hb.2, pyMin_le_pyMean hne⟩ <;>
    simp [Timers.min, Timers.max, Timers.mean, Timers.median, Timers.apply, hl]

/-- Witness for C9: samples `[3, 1, 2]` under name `a`. -/
theorem stats_ordering_witness :
    (((Timers.empty.add "a" 3).add "a" 1).add "a" 2).min "a" = .ok 1 ∧
    (((Timers.empty.add "a" 3).add "a" 1).add "a" 2).median "a" = .ok 2 ∧
    (((Timers.empty.add "a" 3).add "a" 1).add "a" 2).max "a" = .ok 3 ∧
    (((Timers.empty.add "a" 3).add "a" 1).add "a" 2).mean "a" = .ok 2 ∧
    pyMin [3, 1, 2] ≤ pyMedian [3, 1, 2] := by
  have h := stats_ordering (((Timers.empty.add "a" 3).add "a" 1).add "a" 2) "a" [3, 1, 2]
    (by with_unfolding_all decide) (by decide)
  refine ⟨?_, ?_, ?_, ?_, h.2.2.2.2.1⟩
  · rw [h.1]; with_unfolding_all decide
  · rw [h.2.2.2.1]; with_unfolding_all decide
  · rw [h.2.1]; with_unfolding_all decide
  · rw [h.2.2.1]; with_unfolding_all decide
